import Mathlib

/-!
Verification of the Pollify poll/vote logic.

The definitions below are a shallow embedding of the vote-submission,
tally, and poll CRUD logic of the repository:
  * `src/lib/actions/votes.ts`   (submitVote, hasUserVoted, getUserVote, removeVote)
  * `src/lib/actions.ts`         (legacy submitVote, createPoll, updatePoll,
                                  deletePoll, getPollWithVotes)
  * `src/app/api/polls/route.ts` (POST handler creating polls)
  * `src/lib/validations/schemas.ts` (pollFormSchema, submitVoteSchema)
  * `src/constants/index.ts`     (MESSAGES.ERROR / MESSAGES.SUCCESS)
  * the Prisma migration SQL (tables Poll/Vote/User, foreign key
    Vote.pollId -> Poll.id declared ON DELETE RESTRICT)

The database is modeled as explicit lists of rows; the authenticated
identity (supabase getUser / getCurrentUser) is passed in as an
`Option String` of the user id.
-/

namespace Pollify

/-- MESSAGES.ERROR.UNAUTHORIZED from src/constants/index.ts. -/
def msgUnauthorized : String := "You must be logged in to perform this action"

/-- MESSAGES.ERROR.NOT_FOUND from src/constants/index.ts. -/
def msgNotFound : String := "Resource not found"

/-- MESSAGES.ERROR.ALREADY_VOTED from src/constants/index.ts. -/
def msgAlreadyVoted : String := "You have already voted on this poll"

/-- MESSAGES.ERROR.INVALID_OPTION from src/constants/index.ts. -/
def msgInvalidOption : String := "Invalid voting option"

/-- MESSAGES.SUCCESS.VOTE_SUBMITTED from src/constants/index.ts. -/
def msgVoteSubmitted : String := "Vote submitted successfully"

/-- A row of the Poll table (id, question, options JSON array, creatorId). -/
structure Poll where
  id : String
  question : String
  options : List String
  creatorId : String
deriving DecidableEq, Repr

/-- A row of the Vote table (id, pollId, userId, selectedOption). -/
structure Vote where
  id : Nat
  pollId : String
  userId : String
  selectedOption : String
deriving DecidableEq, Repr

/-- The relational store: Poll rows, Vote rows, and id counters standing in
for the generated primary keys. -/
structure DB where
  polls : List Poll
  votes : List Vote
  nextVoteId : Nat
  nextPollId : Nat
deriving DecidableEq, Repr

/-- The ActionResult shape returned by the server actions:
`{success: boolean, message: string, errors?}`. -/
structure ActionResult where
  success : Bool
  message : String
  errors : Option (List (String × String)) := none
deriving DecidableEq, Repr

/-! ## Tally computation

`getPollWithVotes` (src/lib/actions.ts lines 268-288) initialises a record
with one key per option set to 0, then walks the poll's votes and
increments a counter only when `voteCounts.hasOwnProperty(vote.selectedOption)`.
A JS record is modeled as an association list with insertion order. -/

/-- The `options.reduce((acc, option) => { acc[option] = 0; return acc; }, {})`
initialisation: one entry per distinct option, value 0, insertion order.
Re-assigning an existing key to 0 is a no-op, so only fresh keys append. -/
def initCounts (options : List String) : List (String × Nat) :=
  options.foldl
    (fun acc o => if acc.any (fun p => p.1 == o) then acc else acc ++ [(o, 0)]) []

/-- One step of the `poll.votes.forEach` loop: increment the counter for
`s` when the record has that key (`hasOwnProperty`), otherwise skip. -/
def bump (acc : List (String × Nat)) (s : String) : List (String × Nat) :=
  if acc.any (fun p => p.1 == s) then
    acc.map (fun p => if p.1 == s then (p.1, p.2 + 1) else p)
  else acc

/-- The voteCounts record computed by `getPollWithVotes` for a poll with
the given options from the given vote rows. -/
def voteCounts (options : List String) (votes : List Vote) : List (String × Nat) :=
  votes.foldl (fun acc v => bump acc v.selectedOption) (initCounts options)

/-- Sum of the per-option counters of a tally record. -/
def sumCounts (acc : List (String × Nat)) : Nat :=
  (acc.map Prod.snd).sum

/-- Record lookup: value of the first entry with the given key. -/
def getCount : List (String × Nat) → String → Option Nat
  | [], _ => none
  | (k, n) :: rest, o => if k = o then some n else getCount rest o

/-- `prisma.poll.findUnique({where: {id}})`. -/
def findPoll (pollId : String) (db : DB) : Option Poll :=
  db.polls.find? (fun p => p.id == pollId)

/-- `getPollWithVotes` (src/lib/actions.ts): the poll joined with its vote
rows, the per-option counts, and `totalVotes = poll.votes.length`. -/
def getPollWithVotes (id : String) (db : DB) :
    Option (Poll × List (String × Nat) × Nat) :=
  match findPoll id db with
  | none => none
  | some poll =>
    let pv := db.votes.filter (fun v => v.pollId == id)
    some (poll, voteCounts poll.options pv, pv.length)

/-! ## Vote submission and removal (src/lib/actions/votes.ts) -/

/-- `prisma.vote.findFirst({where: {pollId, userId}})`. -/
def findUserVote (pollId userId : String) (db : DB) : Option Vote :=
  db.votes.find? (fun v => v.pollId == pollId && v.userId == userId)

/-- The field errors collected by `validateSchema(submitVoteSchema, ...)`
(src/lib/validations/schemas.ts): each field is `z.string().min(1, msg)`. -/
def submitVoteErrors (pollId selectedOption userId : String) : List (String × String) :=
  (if pollId = "" then [("pollId", "Poll ID is required")] else []) ++
  (if selectedOption = "" then [("selectedOption", "Selected option is required")] else []) ++
  (if userId = "" then [("userId", "User ID is required")] else [])

/-- `submitVote` from src/lib/actions/votes.ts: auth check, submitVoteSchema
validation, poll lookup, option membership, duplicate-vote check, then
`prisma.vote.create`. The first failing check returns; the store only
changes in the final branch. -/
def submitVote (user : Option String) (pollId selectedOption : String) (db : DB) :
    ActionResult × DB :=
  match user with
  | none => (⟨false, msgUnauthorized, none⟩, db)
  | some uid =>
    if submitVoteErrors pollId selectedOption uid ≠ [] then
      (⟨false, "Invalid vote data", some (submitVoteErrors pollId selectedOption uid)⟩, db)
    else
      match findPoll pollId db with
      | none => (⟨false, msgNotFound, none⟩, db)
      | some poll =>
        if selectedOption ∈ poll.options then
          match findUserVote pollId uid db with
          | some _ => (⟨false, msgAlreadyVoted, none⟩, db)
          | none =>
            (⟨true, msgVoteSubmitted, none⟩,
             { db with
                votes := db.votes ++ [⟨db.nextVoteId, pollId, uid, selectedOption⟩],
                nextVoteId := db.nextVoteId + 1 })
        else (⟨false, msgInvalidOption, none⟩, db)

/-- The older `submitVote` from src/lib/actions.ts: same checks except the
submitVoteSchema validation step, with inline message strings. -/
def submitVoteLegacy (user : Option String) (pollId selectedOption : String) (db : DB) :
    ActionResult × DB :=
  match user with
  | none => (⟨false, "You must be logged in to vote.", none⟩, db)
  | some uid =>
    match findPoll pollId db with
    | none => (⟨false, "Poll not found.", none⟩, db)
    | some poll =>
      if selectedOption ∈ poll.options then
        match findUserVote pollId uid db with
        | some _ => (⟨false, "You have already voted on this poll.", none⟩, db)
        | none =>
          (⟨true, "Vote submitted successfully!", none⟩,
           { db with
              votes := db.votes ++ [⟨db.nextVoteId, pollId, uid, selectedOption⟩],
              nextVoteId := db.nextVoteId + 1 })
      else (⟨false, "Invalid voting option.", none⟩, db)

/-- `hasUserVoted` from src/lib/actions/votes.ts: `!!vote` on the findFirst
result, false when unauthenticated. -/
def hasUserVoted (user : Option String) (pollId : String) (db : DB) : Bool :=
  match user with
  | none => false
  | some uid => (findUserVote pollId uid db).isSome

/-- `getUserVote` from src/lib/actions/votes.ts. The source returns
`vote?.selectedOption || null`, so a stored empty-string option is also
reported as null (JS falsiness). -/
def getUserVote (user : Option String) (pollId : String) (db : DB) : Option String :=
  match user with
  | none => none
  | some uid =>
    match findUserVote pollId uid db with
    | none => none
    | some v => if v.selectedOption = "" then none else some v.selectedOption

/-- `removeVote` from src/lib/actions/votes.ts: findFirst the caller's vote
for the poll, then `prisma.vote.delete({where: {id}})`. -/
def removeVote (user : Option String) (pollId : String) (db : DB) : ActionResult × DB :=
  match user with
  | none => (⟨false, msgUnauthorized, none⟩, db)
  | some uid =>
    match findUserVote pollId uid db with
    | none => (⟨false, "No vote found to remove", none⟩, db)
    | some v =>
      (⟨true, "Vote removed successfully", none⟩,
       { db with votes := db.votes.filter (fun w => w.id ≠ v.id) })

/-! ## Poll CRUD (src/lib/actions.ts and src/app/api/polls/route.ts) -/

/-- `deletePoll` from src/lib/actions.ts: `prisma.poll.delete({where:
{id, creatorId}})` inside try/catch. The migration SQL declares the
Vote.pollId foreign key ON DELETE RESTRICT, so the delete statement throws
when any Vote row references the poll (and also when no row matches
id+creatorId); both throws are caught and reported as a failure. -/
def deletePoll (user : Option String) (id : String) (db : DB) : ActionResult × DB :=
  match user with
  | none => (⟨false, "You must be logged in to delete a poll.", none⟩, db)
  | some uid =>
    match db.polls.find? (fun p => p.id == id && p.creatorId == uid) with
    | none => (⟨false, "Failed to delete poll.", none⟩, db)
    | some _ =>
      if db.votes.any (fun v => v.pollId == id) then
        (⟨false, "Failed to delete poll.", none⟩, db)
      else
        (⟨true, "Poll deleted successfully.", none⟩,
         { db with polls := db.polls.filter (fun p => !(p.id == id && p.creatorId == uid)) })

/-- `createPoll` from src/lib/actions.ts. The inner
`z.object({question: min(1), options: array.min(2)}).parse` runs OUTSIDE
the try/catch, so a failing parse raises an uncaught ZodError, modeled as
`Except.error`; everything else returns a structured result. -/
def createPoll (user : Option String) (question : String) (options : List String)
    (db : DB) : Except String (ActionResult × DB) :=
  match user with
  | none => .ok (⟨false, "You must be logged in to create a poll.", none⟩, db)
  | some uid =>
    if question = "" ∨ options.length < 2 then
      .error "ZodError"
    else
      .ok (⟨true, "Poll created successfully", none⟩,
        { db with
           polls := db.polls ++
             [⟨"poll-" ++ toString db.nextPollId, question, options, uid⟩],
           nextPollId := db.nextPollId + 1 })

/-- `updatePoll` from src/lib/actions.ts. The inner schema `parse` also
runs outside try/catch (`Except.error` on malformed shape). On a
successful `prisma.poll.update` the action calls `redirect` inside the
try block; the redirect throw is caught by the catch, so even the success
path reports the failure message while the row was updated. -/
def updatePoll (user : Option String) (id question : String) (options : List String)
    (db : DB) : Except String (ActionResult × DB) :=
  match user with
  | none => .ok (⟨false, "You must be logged in to update a poll.", none⟩, db)
  | some uid =>
    if question = "" ∨ options.length < 2 then
      .error "ZodError"
    else
      match db.polls.find? (fun p => p.id == id && p.creatorId == uid) with
      | none => .ok (⟨false, "Failed to update poll.", none⟩, db)
      | some _ =>
        .ok (⟨false, "Failed to update poll.", none⟩,
          { db with polls := db.polls.map (fun p =>
              if p.id == id && p.creatorId == uid then
                { p with question := question, options := options }
              else p) })

/-- A JSON HTTP response: status code and message. -/
structure ApiResp where
  status : Nat
  message : String
deriving DecidableEq, Repr

/-- The POST handler of src/app/api/polls/route.ts: 401 unauthenticated,
safeParse of `{question: min(1), options: array.min(2)}` (no uniqueness or
per-option emptiness check), then `prisma.poll.create` and 201. -/
def apiCreatePoll (user : Option String) (question : String) (options : List String)
    (db : DB) : ApiResp × DB :=
  match user with
  | none => (⟨401, "You must be logged in to create a poll."⟩, db)
  | some uid =>
    if question = "" ∨ options.length < 2 then
      (⟨400, "Validation failed"⟩, db)
    else
      (⟨201, "created"⟩,
       { db with
          polls := db.polls ++
            [⟨"poll-" ++ toString db.nextPollId, question, options, uid⟩],
          nextPollId := db.nextPollId + 1 })

/-- `pollFormSchema` from src/lib/validations/schemas.ts: question 1..500
chars, 2..10 options of 1..200 chars each, and the refine requiring
`new Set(options).size === options.length` (no duplicate options). -/
def pollFormSchemaCheck (question : String) (options : List String) : Bool :=
  decide (1 ≤ question.length) && decide (question.length ≤ 500) &&
  options.all (fun o => decide (1 ≤ o.length) && decide (o.length ≤ 200)) &&
  decide (2 ≤ options.length) && decide (options.length ≤ 10) &&
  decide (options.dedup.length = options.length)

/-! ## Reachability through the program's operations -/

/-- One application of a state-changing operation of the program. -/
inductive Step : DB → DB → Prop
  | vote (u pid o : String) (db : DB) : Step db (submitVote (some u) pid o db).2
  | voteLegacy (u pid o : String) (db : DB) :
      Step db (submitVoteLegacy (some u) pid o db).2
  | unvote (u pid : String) (db : DB) : Step db (removeVote (some u) pid db).2
  | del (u pid : String) (db : DB) : Step db (deletePoll (some u) pid db).2
  | create (u q : String) (opts : List String) (db : DB) (r : ActionResult × DB)
      (h : createPoll (some u) q opts db = .ok r) : Step db r.2
  | update (u pid q : String) (opts : List String) (db : DB) (r : ActionResult × DB)
      (h : updatePoll (some u) pid q opts db = .ok r) : Step db r.2
  | apiCreate (u q : String) (opts : List String) (db : DB) :
      Step db (apiCreatePoll (some u) q opts db).2

/-- No orphaned Vote rows: every vote references an existing poll. -/
def NoOrphans (db : DB) : Prop :=
  ∀ v ∈ db.votes, ∃ p ∈ db.polls, p.id = v.pollId

/-! ## Lemmas about the tally record -/

lemma map_bumpFun_eq_self (acc : List (String × Nat)) (s : String)
    (h : acc.any (fun p => p.1 == s) = false) :
    acc.map (fun p => if p.1 == s then (p.1, p.2 + 1) else p) = acc := by
  induction acc with
  | nil => rfl
  | cons p rest ih =>
    simp only [List.any_cons, Bool.or_eq_false_iff] at h
    have h1 : ¬ ((p.1 == s) = true) := by simp [h.1]
    simp only [List.map_cons, ih h.2]
    rw [if_neg h1]

lemma bump_eq_map (acc : List (String × Nat)) (s : String) :
    bump acc s = acc.map (fun p => if p.1 == s then (p.1, p.2 + 1) else p) := by
  unfold bump
  split
  · rfl
  · next h => exact (map_bumpFun_eq_self acc s (Bool.eq_false_iff.mpr h)).symm

lemma keys_bump (acc : List (String × Nat)) (s : String) :
    (bump acc s).map Prod.fst = acc.map Prod.fst := by
  rw [bump_eq_map, List.map_map]
  refine List.map_congr_left ?_
  intro p _
  by_cases h : p.1 = s <;> simp [Function.comp, h]

lemma any_keys_iff (acc : List (String × Nat)) (s : String) :
    acc.any (fun p => p.1 == s) = true ↔ s ∈ acc.map Prod.fst := by
  rw [List.any_eq_true]
  constructor
  · rintro ⟨p, hp, hbeq⟩
    exact List.mem_map.mpr ⟨p, hp, by simpa using hbeq⟩
  · intro hmem
    obtain ⟨p, hp, hfst⟩ := List.mem_map.mp hmem
    exact ⟨p, hp, by simp [hfst]⟩

lemma getCount_map_inc (acc : List (String × Nat)) (s o : String) :
    getCount (acc.map (fun p => if p.1 == s then (p.1, p.2 + 1) else p)) o
      = (getCount acc o).map (fun n => if s = o then n + 1 else n) := by
  induction acc with
  | nil => rfl
  | cons p rest ih =>
    obtain ⟨k, n⟩ := p
    simp only [List.map_cons]
    by_cases hks : k = s
    · rw [if_pos (by simp [hks])]
      simp only [getCount]
      by_cases hko : k = o
      · rw [if_pos hko, if_pos hko]
        simp [hks.symm.trans hko]
      · rw [if_neg hko, if_neg hko]
        exact ih
    · rw [if_neg (by simp [hks])]
      simp only [getCount]
      by_cases hko : k = o
      · rw [if_pos hko, if_pos hko]
        have hso : ¬ s = o := fun hh => hks (hko.trans hh.symm)
        simp [hso]
      · rw [if_neg hko, if_neg hko]
        exact ih

lemma getCount_bump (acc : List (String × Nat)) (s o : String) :
    getCount (bump acc s) o
      = (getCount acc o).map (fun n => if s = o then n + 1 else n) := by
  rw [bump_eq_map]
  exact getCount_map_inc acc s o

lemma getCount_foldl_bump (votes : List Vote) (acc : List (String × Nat)) (o : String) :
    getCount (votes.foldl (fun a v => bump a v.selectedOption) acc) o
      = (getCount acc o).map
          (fun n => n + votes.countP (fun v => v.selectedOption == o)) := by
  induction votes generalizing acc with
  | nil => cases h : getCount acc o <;> simp [h]
  | cons v rest ih =>
    rw [List.foldl_cons, ih, getCount_bump]
    cases h : getCount acc o with
    | none => simp
    | some n =>
      by_cases hv : v.selectedOption = o <;>
        simp [List.countP_cons, hv] <;> omega

lemma getCount_eq_none_iff (acc : List (String × Nat)) (k : String) :
    getCount acc k = none ↔ acc.any (fun p => p.1 == k) = false := by
  induction acc with
  | nil => simp [getCount]
  | cons p rest ih =>
    obtain ⟨a, n⟩ := p
    by_cases h : a = k <;> simp [getCount, h, ih]

lemma getCount_append_single (acc : List (String × Nat)) (k o : String) :
    getCount (acc ++ [(k, 0)]) o
      = (getCount acc o).or (if k = o then some 0 else none) := by
  induction acc with
  | nil => by_cases h : k = o <;> simp [getCount, h]
  | cons p rest ih =>
    obtain ⟨a, n⟩ := p
    by_cases h : a = o <;> simp [getCount, h, ih]

lemma getCount_initStep (acc : List (String × Nat)) (k o : String) :
    getCount (if acc.any (fun p => p.1 == k) then acc else acc ++ [(k, 0)]) o
      = (getCount acc o).or (if k = o then some 0 else none) := by
  split
  · next h =>
    by_cases hko : k = o
    · subst hko
      have hne : getCount acc k ≠ none := by
        rw [Ne, getCount_eq_none_iff]
        simp [h]
      obtain ⟨n, hn⟩ := Option.ne_none_iff_exists'.mp hne
      simp [hn]
    · cases hc : getCount acc o <;> simp [hc, hko]
  · next h => exact getCount_append_single acc k o

lemma getCount_foldl_init (l : List String) (acc : List (String × Nat)) (o : String) :
    getCount (l.foldl (fun acc2 k =>
        if acc2.any (fun p => p.1 == k) then acc2 else acc2 ++ [(k, 0)]) acc) o
      = (getCount acc o).or (if o ∈ l then some 0 else none) := by
  induction l generalizing acc with
  | nil => simp
  | cons k rest ih =>
    rw [List.foldl_cons, ih, getCount_initStep, Option.or_assoc]
    congr 1
    by_cases hk : k = o
    · subst hk
      simp [Option.or]
    · have hne : ¬ o = k := fun hh => hk hh.symm
      by_cases ho : o ∈ rest <;> simp [hk, hne, ho, Option.or]

lemma getCount_initCounts (options : List String) (o : String) :
    getCount (initCounts options) o = if o ∈ options then some 0 else none := by
  unfold initCounts
  rw [getCount_foldl_init]
  simp [getCount]

lemma getCount_voteCounts (options : List String) (votes : List Vote) (o : String) :
    getCount (voteCounts options votes) o
      = if o ∈ options then
          some (votes.countP (fun v => v.selectedOption == o))
        else none := by
  unfold voteCounts
  rw [getCount_foldl_bump, getCount_initCounts]
  by_cases h : o ∈ options <;> simp [h]

lemma getCount_isSome_iff (acc : List (String × Nat)) (o : String) :
    (getCount acc o).isSome = true ↔ o ∈ acc.map Prod.fst := by
  induction acc with
  | nil => simp [getCount]
  | cons p rest ih =>
    obtain ⟨a, n⟩ := p
    by_cases h : a = o
    · subst h
      simp [getCount]
    · have hne : ¬ o = a := fun hh => h hh.symm
      simp [getCount, h, hne, ih]

lemma mem_keys_initCounts (options : List String) (o : String) :
    o ∈ (initCounts options).map Prod.fst ↔ o ∈ options := by
  rw [← getCount_isSome_iff, getCount_initCounts]
  by_cases h : o ∈ options <;> simp [h]

lemma nodup_keys_foldl_init (l : List String) (acc : List (String × Nat))
    (h : (acc.map Prod.fst).Nodup) :
    ((l.foldl (fun acc2 k =>
        if acc2.any (fun p => p.1 == k) then acc2 else acc2 ++ [(k, 0)]) acc).map
          Prod.fst).Nodup := by
  induction l generalizing acc with
  | nil => exact h
  | cons k rest ih =>
    rw [List.foldl_cons]
    apply ih
    split
    · exact h
    · next hany =>
      have hk : k ∉ acc.map Prod.fst := by
        intro hmem
        exact hany ((any_keys_iff acc k).mpr hmem)
      simp [List.nodup_append, h, hk]

lemma nodup_keys_initCounts (options : List String) :
    ((initCounts options).map Prod.fst).Nodup := by
  unfold initCounts
  exact nodup_keys_foldl_init options [] (by simp)

lemma sum_map_inc (acc : List (String × Nat)) (s : String)
    (h : (acc.map Prod.fst).Nodup) :
    sumCounts (acc.map (fun p => if p.1 == s then (p.1, p.2 + 1) else p))
      = sumCounts acc + (if s ∈ acc.map Prod.fst then 1 else 0) := by
  induction acc with
  | nil => simp [sumCounts]
  | cons p rest ih =>
    obtain ⟨a, n⟩ := p
    simp only [List.map_cons, List.nodup_cons] at h
    have ih2 := ih h.2
    simp only [List.map_cons, sumCounts, List.sum_cons]
    simp only [sumCounts] at ih2
    by_cases has : a = s
    · have hsno : s ∉ rest.map Prod.fst := by
        rw [← has]
        exact h.1
      rw [if_pos (by simp [has] : ((a == s) = true))]
      simp [has, hsno] at ih2 ⊢
      omega
    · have hne : ¬ s = a := fun hh => has hh.symm
      rw [if_neg (by simp [has] : ¬ ((a == s) = true))]
      by_cases hs : s ∈ rest.map Prod.fst
      · simp [hne, hs] at ih2 ⊢
        omega
      · simp [hne, hs] at ih2 ⊢
        omega

lemma sum_bump (acc : List (String × Nat)) (s : String)
    (h : (acc.map Prod.fst).Nodup) :
    sumCounts (bump acc s)
      = sumCounts acc + (if s ∈ acc.map Prod.fst then 1 else 0) := by
  rw [bump_eq_map]
  exact sum_map_inc acc s h

lemma sum_foldl_bump (votes : List Vote) (acc : List (String × Nat))
    (h : (acc.map Prod.fst).Nodup) :
    sumCounts (votes.foldl (fun a v => bump a v.selectedOption) acc)
      = sumCounts acc
        + votes.countP (fun v => decide (v.selectedOption ∈ acc.map Prod.fst)) := by
  induction votes generalizing acc with
  | nil => simp
  | cons v rest ih =>
    rw [List.foldl_cons]
    have hnd : ((bump acc v.selectedOption).map Prod.fst).Nodup := by
      rw [keys_bump]
      exact h
    rw [ih _ hnd, sum_bump acc _ h]
    have hkeys : (bump acc v.selectedOption).map Prod.fst = acc.map Prod.fst :=
      keys_bump acc v.selectedOption
    rw [hkeys]
    by_cases hv : v.selectedOption ∈ acc.map Prod.fst <;>
      simp [List.countP_cons, hv] <;> omega

lemma sum_foldl_init (l : List String) (acc : List (String × Nat)) :
    sumCounts (l.foldl (fun acc2 k =>
      if acc2.any (fun p => p.1 == k) then acc2 else acc2 ++ [(k, 0)]) acc)
      = sumCounts acc := by
  induction l generalizing acc with
  | nil => rfl
  | cons k rest ih =>
    rw [List.foldl_cons, ih]
    split
    · rfl
    · simp [sumCounts]

lemma sum_initCounts (options : List String) : sumCounts (initCounts options) = 0 := by
  unfold initCounts
  rw [sum_foldl_init]
  rfl

lemma sum_voteCounts (options : List String) (votes : List Vote) :
    sumCounts (voteCounts options votes)
      = votes.countP (fun v => decide (v.selectedOption ∈ options)) := by
  unfold voteCounts
  rw [sum_foldl_bump _ _ (nodup_keys_initCounts options), sum_initCounts]
  simp only [Nat.zero_add]
  apply List.countP_congr
  intro v _
  simp only [decide_eq_true_eq]
  exact mem_keys_initCounts options v.selectedOption

/-! ## Concrete fixtures (the spec's Red/Blue/Green example) -/

/-- The example poll of the spec with options Red, Blue, Green. -/
def examplePoll : Poll := ⟨"p1", "Favorite color?", ["Red", "Blue", "Green"], "u1"⟩

/-- Three votes on the example poll choosing Red, Blue, Red. -/
def exampleVotes : List Vote :=
  [⟨0, "p1", "u1", "Red"⟩, ⟨1, "p1", "u2", "Blue"⟩, ⟨2, "p1", "u3", "Red"⟩]

/-- A store holding the example poll and its three votes. -/
def exampleDB : DB := ⟨[examplePoll], exampleVotes, 3, 1⟩

/-- A store where the single vote references an option (Blue) that is no
longer in the poll's options sequence. -/
def orphanOptionDB : DB :=
  ⟨[⟨"p1", "q", ["Red"], "u1"⟩], [⟨0, "p1", "u2", "Blue"⟩], 1, 1⟩

/-! ## Branch equations for submitVote -/

lemma submitVote_none_eq (pid o : String) (db : DB) :
    submitVote none pid o db = (⟨false, msgUnauthorized, none⟩, db) := rfl

lemma submitVote_errors_eq (u pid o : String) (db : DB)
    (h : submitVoteErrors pid o u ≠ []) :
    submitVote (some u) pid o db
      = (⟨false, "Invalid vote data", some (submitVoteErrors pid o u)⟩, db) := by
  simp [submitVote, h]

lemma submitVote_notFound_eq (u pid o : String) (db : DB)
    (herr : submitVoteErrors pid o u = []) (hp : findPoll pid db = none) :
    submitVote (some u) pid o db = (⟨false, msgNotFound, none⟩, db) := by
  simp [submitVote, herr, hp]

lemma submitVote_invalidOption_eq (u pid o : String) (db : DB) (poll : Poll)
    (herr : submitVoteErrors pid o u = []) (hp : findPoll pid db = some poll)
    (ho : o ∉ poll.options) :
    submitVote (some u) pid o db = (⟨false, msgInvalidOption, none⟩, db) := by
  simp [submitVote, herr, hp, ho]

lemma submitVote_already_eq (u pid o : String) (db : DB) (poll : Poll) (w : Vote)
    (herr : submitVoteErrors pid o u = []) (hp : findPoll pid db = some poll)
    (ho : o ∈ poll.options) (hv : findUserVote pid u db = some w) :
    submitVote (some u) pid o db = (⟨false, msgAlreadyVoted, none⟩, db) := by
  simp [submitVote, herr, hp, ho, hv]

lemma submitVote_success_eq (u pid o : String) (db : DB) (poll : Poll)
    (herr : submitVoteErrors pid o u = []) (hp : findPoll pid db = some poll)
    (ho : o ∈ poll.options) (hv : findUserVote pid u db = none) :
    submitVote (some u) pid o db
      = (⟨true, msgVoteSubmitted, none⟩,
         { db with
            votes := db.votes ++ [⟨db.nextVoteId, pid, u, o⟩],
            nextVoteId := db.nextVoteId + 1 }) := by
  simp [submitVote, herr, hp, ho, hv]

lemma submitVoteLegacy_none_eq (pid o : String) (db : DB) :
    submitVoteLegacy none pid o db
      = (⟨false, "You must be logged in to vote.", none⟩, db) := rfl

lemma submitVoteLegacy_notFound_eq (u pid o : String) (db : DB)
    (hp : findPoll pid db = none) :
    submitVoteLegacy (some u) pid o db = (⟨false, "Poll not found.", none⟩, db) := by
  simp [submitVoteLegacy, hp]

lemma submitVoteLegacy_invalidOption_eq (u pid o : String) (db : DB) (poll : Poll)
    (hp : findPoll pid db = some poll) (ho : o ∉ poll.options) :
    submitVoteLegacy (some u) pid o db
      = (⟨false, "Invalid voting option.", none⟩, db) := by
  simp [submitVoteLegacy, hp, ho]

lemma submitVoteLegacy_already_eq (u pid o : String) (db : DB) (poll : Poll) (w : Vote)
    (hp : findPoll pid db = some poll) (ho : o ∈ poll.options)
    (hv : findUserVote pid u db = some w) :
    submitVoteLegacy (some u) pid o db
      = (⟨false, "You have already voted on this poll.", none⟩, db) := by
  simp [submitVoteLegacy, hp, ho, hv]

lemma submitVoteLegacy_success_eq (u pid o : String) (db : DB) (poll : Poll)
    (hp : findPoll pid db = some poll) (ho : o ∈ poll.options)
    (hv : findUserVote pid u db = none) :
    submitVoteLegacy (some u) pid o db
      = (⟨true, "Vote submitted successfully!", none⟩,
         { db with
            votes := db.votes ++ [⟨db.nextVoteId, pid, u, o⟩],
            nextVoteId := db.nextVoteId + 1 }) := by
  simp [submitVoteLegacy, hp, ho, hv]

lemma submitVoteErrors_nil (u pid o : String)
    (hpid : pid ≠ "") (ho : o ≠ "") (hu : u ≠ "") :
    submitVoteErrors pid o u = [] := by
  unfold submitVoteErrors
  simp [hpid, ho, hu]

/-! ## Branch equations for the other operations -/

lemma removeVote_noVote_eq (u pid : String) (db : DB)
    (hv : findUserVote pid u db = none) :
    removeVote (some u) pid db = (⟨false, "No vote found to remove", none⟩, db) := by
  simp [removeVote, hv]

lemma removeVote_found_eq (u pid : String) (db : DB) (v : Vote)
    (hv : findUserVote pid u db = some v) :
    removeVote (some u) pid db
      = (⟨true, "Vote removed successfully", none⟩,
         { db with votes := db.votes.filter (fun w => w.id ≠ v.id) }) := by
  simp [removeVote, hv]

lemma deletePoll_notOwned_eq (u pid : String) (db : DB)
    (hf : db.polls.find? (fun p => p.id == pid && p.creatorId == u) = none) :
    deletePoll (some u) pid db = (⟨false, "Failed to delete poll.", none⟩, db) := by
  simp [deletePoll, hf]

lemma deletePoll_hasVotes_eq (u pid : String) (db : DB) (p : Poll)
    (hf : db.polls.find? (fun p2 => p2.id == pid && p2.creatorId == u) = some p)
    (hany : db.votes.any (fun v => v.pollId == pid) = true) :
    deletePoll (some u) pid db = (⟨false, "Failed to delete poll.", none⟩, db) := by
  simp [deletePoll, hf, hany]

lemma deletePoll_success_eq (u pid : String) (db : DB) (p : Poll)
    (hf : db.polls.find? (fun p2 => p2.id == pid && p2.creatorId == u) = some p)
    (hany : db.votes.any (fun v => v.pollId == pid) = false) :
    deletePoll (some u) pid db
      = (⟨true, "Poll deleted successfully.", none⟩,
         { db with
            polls := db.polls.filter (fun p2 => !(p2.id == pid && p2.creatorId == u)) }) := by
  simp [deletePoll, hf, hany]

lemma findPoll_props (pid : String) (db : DB) (poll : Poll)
    (hp : findPoll pid db = some poll) : poll ∈ db.polls ∧ poll.id = pid := by
  unfold findPoll at hp
  refine ⟨List.mem_of_find?_eq_some hp, ?_⟩
  have hb := List.find?_some hp
  simpa using hb

lemma findUserVote_none_iff (pid u : String) (db : DB) :
    findUserVote pid u db = none
      ↔ ∀ v ∈ db.votes, ¬ (v.pollId = pid ∧ v.userId = u) := by
  unfold findUserVote
  rw [List.find?_eq_none]
  constructor
  · intro h v hv hcon
    have hb := h v hv
    rw [Bool.and_eq_true, beq_iff_eq, beq_iff_eq] at hb
    exact hb ⟨hcon.1, hcon.2⟩
  · intro h v hv
    rw [Bool.and_eq_true, beq_iff_eq, beq_iff_eq]
    exact h v hv

lemma hasUserVoted_eq (u pid : String) (db : DB) :
    hasUserVoted (some u) pid db = (findUserVote pid u db).isSome := rfl

lemma getUserVote_none_eq (u pid : String) (db : DB)
    (h : findUserVote pid u db = none) :
    getUserVote (some u) pid db = none := by
  simp [getUserVote, h]

/-! ## Preservation of the no-orphan-votes invariant -/

lemma noOrphans_submitVote (u pid o : String) (db : DB) (h : NoOrphans db) :
    NoOrphans (submitVote (some u) pid o db).2 := by
  by_cases herr : submitVoteErrors pid o u = []
  · cases hp : findPoll pid db with
    | none =>
      rw [submitVote_notFound_eq u pid o db herr hp]
      exact h
    | some poll =>
      by_cases ho : o ∈ poll.options
      · cases hv : findUserVote pid u db with
        | some w =>
          rw [submitVote_already_eq u pid o db poll w herr hp ho hv]
          exact h
        | none =>
          rw [submitVote_success_eq u pid o db poll herr hp ho hv]
          intro v hvmem
          rcases List.mem_append.mp hvmem with h1 | h2
          · exact h v h1
          · have hveq : v = ⟨db.nextVoteId, pid, u, o⟩ := by simpa using h2
            subst hveq
            obtain ⟨hmem, hid⟩ := findPoll_props pid db poll hp
            exact ⟨poll, hmem, hid⟩
      · rw [submitVote_invalidOption_eq u pid o db poll herr hp ho]
        exact h
  · rw [submitVote_errors_eq u pid o db herr]
    exact h

lemma noOrphans_submitVoteLegacy (u pid o : String) (db : DB) (h : NoOrphans db) :
    NoOrphans (submitVoteLegacy (some u) pid o db).2 := by
  cases hp : findPoll pid db with
  | none =>
    rw [submitVoteLegacy_notFound_eq u pid o db hp]
    exact h
  | some poll =>
    by_cases ho : o ∈ poll.options
    · cases hv : findUserVote pid u db with
      | some w =>
        rw [submitVoteLegacy_already_eq u pid o db poll w hp ho hv]
        exact h
      | none =>
        rw [submitVoteLegacy_success_eq u pid o db poll hp ho hv]
        intro v hvmem
        rcases List.mem_append.mp hvmem with h1 | h2
        · exact h v h1
        · have hveq : v = ⟨db.nextVoteId, pid, u, o⟩ := by simpa using h2
          subst hveq
          obtain ⟨hmem, hid⟩ := findPoll_props pid db poll hp
          exact ⟨poll, hmem, hid⟩
    · rw [submitVoteLegacy_invalidOption_eq u pid o db poll hp ho]
      exact h

lemma noOrphans_removeVote (u pid : String) (db : DB) (h : NoOrphans db) :
    NoOrphans (removeVote (some u) pid db).2 := by
  cases hv : findUserVote pid u db with
  | none =>
    rw [removeVote_noVote_eq u pid db hv]
    exact h
  | some v =>
    rw [removeVote_found_eq u pid db v hv]
    intro w hw
    exact h w (List.mem_filter.mp hw).1

lemma noOrphans_deletePoll (u pid : String) (db : DB) (h : NoOrphans db) :
    NoOrphans (deletePoll (some u) pid db).2 := by
  cases hf : db.polls.find? (fun p => p.id == pid && p.creatorId == u) with
  | none =>
    rw [deletePoll_notOwned_eq u pid db hf]
    exact h
  | some p =>
    cases hany : db.votes.any (fun v => v.pollId == pid) with
    | true =>
      rw [deletePoll_hasVotes_eq u pid db p hf hany]
      exact h
    | false =>
      rw [deletePoll_success_eq u pid db p hf hany]
      intro v hv
      obtain ⟨p2, hp2, hid⟩ := h v hv
      refine ⟨p2, ?_, hid⟩
      rw [List.mem_filter]
      refine ⟨hp2, ?_⟩
      by_cases hpp : p2.id = pid
      · exfalso
        have hcon : db.votes.any (fun v2 => v2.pollId == pid) = true :=
          List.any_eq_true.mpr ⟨v, hv, by simp [← hid, hpp]⟩
        rw [hany] at hcon
        cases hcon
      · simp [hpp]

lemma noOrphans_createPoll_ok (u q : String) (opts : List String) (db : DB)
    (r : ActionResult × DB) (hok : createPoll (some u) q opts db = .ok r)
    (h : NoOrphans db) : NoOrphans r.2 := by
  simp only [createPoll] at hok
  by_cases hc : q = "" ∨ opts.length < 2
  · rw [if_pos hc] at hok
    simp at hok
  · rw [if_neg hc] at hok
    injection hok with h2
    rw [← h2]
    intro v hv
    obtain ⟨p, hp, hid⟩ := h v hv
    exact ⟨p, List.mem_append_left _ hp, hid⟩

lemma noOrphans_updatePoll_ok (u pid q : String) (opts : List String) (db : DB)
    (r : ActionResult × DB) (hok : updatePoll (some u) pid q opts db = .ok r)
    (h : NoOrphans db) : NoOrphans r.2 := by
  simp only [updatePoll] at hok
  by_cases hc : q = "" ∨ opts.length < 2
  · rw [if_pos hc] at hok
    simp at hok
  · rw [if_neg hc] at hok
    cases hf : db.polls.find? (fun p => p.id == pid && p.creatorId == u) with
    | none =>
      rw [hf] at hok
      injection hok with h2
      rw [← h2]
      exact h
    | some p =>
      rw [hf] at hok
      injection hok with h2
      rw [← h2]
      intro v hv
      obtain ⟨p2, hp2, hid⟩ := h v hv
      refine ⟨if p2.id == pid && p2.creatorId == u then
                { p2 with question := q, options := opts } else p2,
              List.mem_map.mpr ⟨p2, hp2, rfl⟩, ?_⟩
      by_cases hcond : (p2.id == pid && p2.creatorId == u) = true
      · rw [if_pos hcond]
        exact hid
      · rw [if_neg hcond]
        exact hid

lemma noOrphans_apiCreatePoll (u q : String) (opts : List String) (db : DB)
    (h : NoOrphans db) : NoOrphans (apiCreatePoll (some u) q opts db).2 := by
  by_cases hc : q = "" ∨ opts.length < 2
  · have heq : apiCreatePoll (some u) q opts db = (⟨400, "Validation failed"⟩, db) := by
      simp only [apiCreatePoll]
      rw [if_pos hc]
    rw [heq]
    exact h
  · have heq : apiCreatePoll (some u) q opts db
        = (⟨201, "created"⟩,
           { db with
              polls := db.polls ++ [⟨"poll-" ++ toString db.nextPollId, q, opts, u⟩],
              nextPollId := db.nextPollId + 1 }) := by
      simp only [apiCreatePoll]
      rw [if_neg hc]
    rw [heq]
    intro v hv
    obtain ⟨p, hp, hid⟩ := h v hv
    exact ⟨p, List.mem_append_left _ hp, hid⟩

lemma noOrphans_step (db db2 : DB) (h : NoOrphans db) (hs : Step db db2) :
    NoOrphans db2 := by
  cases hs with
  | vote u pid o db => exact noOrphans_submitVote u pid o db h
  | voteLegacy u pid o db => exact noOrphans_submitVoteLegacy u pid o db h
  | unvote u pid db => exact noOrphans_removeVote u pid db h
  | del u pid db => exact noOrphans_deletePoll u pid db h
  | create u q opts db r hok => exact noOrphans_createPoll_ok u q opts db r hok h
  | update u pid q opts db r hok => exact noOrphans_updatePoll_ok u pid q opts db r hok h
  | apiCreate u q opts db => exact noOrphans_apiCreatePoll u q opts db h

/-! ## Claim theorems -/

/-- C1 counterexample: with an authenticated caller and the empty pollId
(for which no poll exists), the claimed check order dictates the NotFound
failure, but submitVote returns the schema-validation failure
"Invalid vote data" instead: a validation step runs between the
authentication check and the poll lookup. -/
theorem C1_counterexample :
    findPoll "" exampleDB = none
    ∧ (submitVote (some "u1") "" "Red" exampleDB).1
        = ⟨false, "Invalid vote data", some [("pollId", "Poll ID is required")]⟩
    ∧ (submitVote (some "u1") "" "Red" exampleDB).1.message ≠ msgNotFound := by
  refine ⟨rfl, rfl, by decide⟩

/-- C1 (amended): submitVote runs its checks in order — no identity gives
the Unauthorized failure; then (in the votes.ts action only) the
submitVoteSchema validation of nonempty pollId/selectedOption/userId fails
with "Invalid vote data"; then a missing poll gives NotFound; then a
selectedOption outside the poll's stored options gives InvalidOption; then
an existing vote by the caller gives AlreadyVoted; otherwise exactly one
new Vote row (pollId, caller, selectedOption) is appended and success is
signalled. The legacy actions.ts submitVote performs the same five checks
in the claimed order with no validation step. In every failing branch the
store is unchanged. -/
theorem C1_submitVote_check_order :
    (∀ pid o db, submitVote none pid o db = (⟨false, msgUnauthorized, none⟩, db))
    ∧ (∀ u pid o db, submitVoteErrors pid o u ≠ [] →
        submitVote (some u) pid o db
          = (⟨false, "Invalid vote data", some (submitVoteErrors pid o u)⟩, db))
    ∧ (∀ u pid o db, submitVoteErrors pid o u = [] → findPoll pid db = none →
        submitVote (some u) pid o db = (⟨false, msgNotFound, none⟩, db))
    ∧ (∀ u pid o db poll, submitVoteErrors pid o u = [] →
        findPoll pid db = some poll → o ∉ poll.options →
        submitVote (some u) pid o db = (⟨false, msgInvalidOption, none⟩, db))
    ∧ (∀ u pid o db poll w, submitVoteErrors pid o u = [] →
        findPoll pid db = some poll → o ∈ poll.options →
        findUserVote pid u db = some w →
        submitVote (some u) pid o db = (⟨false, msgAlreadyVoted, none⟩, db))
    ∧ (∀ u pid o db poll, submitVoteErrors pid o u = [] →
        findPoll pid db = some poll → o ∈ poll.options →
        findUserVote pid u db = none →
        submitVote (some u) pid o db
          = (⟨true, msgVoteSubmitted, none⟩,
             { db with
                votes := db.votes ++ [⟨db.nextVoteId, pid, u, o⟩],
                nextVoteId := db.nextVoteId + 1 }))
    ∧ (∀ pid o db, submitVoteLegacy none pid o db
        = (⟨false, "You must be logged in to vote.", none⟩, db))
    ∧ (∀ u pid o db, findPoll pid db = none →
        submitVoteLegacy (some u) pid o db = (⟨false, "Poll not found.", none⟩, db))
    ∧ (∀ u pid o db poll, findPoll pid db = some poll → o ∉ poll.options →
        submitVoteLegacy (some u) pid o db
          = (⟨false, "Invalid voting option.", none⟩, db))
    ∧ (∀ u pid o db poll w, findPoll pid db = some poll → o ∈ poll.options →
        findUserVote pid u db = some w →
        submitVoteLegacy (some u) pid o db
          = (⟨false, "You have already voted on this poll.", none⟩, db))
    ∧ (∀ u pid o db poll, findPoll pid db = some poll → o ∈ poll.options →
        findUserVote pid u db = none →
        submitVoteLegacy (some u) pid o db
          = (⟨true, "Vote submitted successfully!", none⟩,
             { db with
                votes := db.votes ++ [⟨db.nextVoteId, pid, u, o⟩],
                nextVoteId := db.nextVoteId + 1 })) :=
  ⟨submitVote_none_eq, submitVote_errors_eq, submitVote_notFound_eq,
   submitVote_invalidOption_eq, submitVote_already_eq, submitVote_success_eq,
   submitVoteLegacy_none_eq, submitVoteLegacy_notFound_eq,
   submitVoteLegacy_invalidOption_eq, submitVoteLegacy_already_eq,
   submitVoteLegacy_success_eq⟩

/-- Witness for C1: a fresh voter u9 voting Green on the example poll
succeeds and appends exactly one Vote row. -/
theorem C1_submitVote_check_order_witness :
    submitVote (some "u9") "p1" "Green" exampleDB
      = (⟨true, msgVoteSubmitted, none⟩,
         ⟨[examplePoll], exampleVotes ++ [⟨3, "p1", "u9", "Green"⟩], 4, 1⟩) :=
  C1_submitVote_check_order.2.2.2.2.2.1 "u9" "p1" "Green" exampleDB examplePoll
    (by decide) (by decide) (by decide) (by decide)

/-- C4 counterexample: u1 has already voted on p1, yet submitting the
invalid option Yellow yields the InvalidOption failure and not
AlreadyVoted — the option-membership check runs before the duplicate-vote
check, so a second vote attempt with an invalid option is not reported as
AlreadyVoted. -/
theorem C4_counterexample :
    (findUserVote "p1" "u1" exampleDB).isSome = true
    ∧ (submitVote (some "u1") "p1" "Yellow" exampleDB).1
        = ⟨false, msgInvalidOption, none⟩
    ∧ msgInvalidOption ≠ msgAlreadyVoted := by
  refine ⟨rfl, rfl, by decide⟩

/-- C4 (amended): after a vote by the caller exists for the poll, a second
submitVote by the same caller with any VALID option (an element of the
existing poll's options; nonempty, as is the pollId and user id) fails
with AlreadyVoted and leaves the store unchanged, in both the votes.ts
action and the legacy actions.ts action; an invalid option instead fails
with InvalidOption (also leaving the store unchanged). -/
theorem C4_already_voted (u pid o : String) (db : DB) (poll : Poll) (w : Vote)
    (hpid : pid ≠ "") (ho2 : o ≠ "") (hu : u ≠ "")
    (hp : findPoll pid db = some poll) (ho : o ∈ poll.options)
    (hv : findUserVote pid u db = some w) :
    submitVote (some u) pid o db = (⟨false, msgAlreadyVoted, none⟩, db)
    ∧ submitVoteLegacy (some u) pid o db
        = (⟨false, "You have already voted on this poll.", none⟩, db) :=
  ⟨submitVote_already_eq u pid o db poll w
      (submitVoteErrors_nil u pid o hpid ho2 hu) hp ho hv,
   submitVoteLegacy_already_eq u pid o db poll w hp ho hv⟩

/-- Witness for C4: u1 (who voted Red on p1) re-voting the valid option
Blue fails with AlreadyVoted and changes nothing. -/
theorem C4_already_voted_witness :
    submitVote (some "u1") "p1" "Blue" exampleDB
      = (⟨false, msgAlreadyVoted, none⟩, exampleDB)
    ∧ submitVoteLegacy (some "u1") "p1" "Blue" exampleDB
        = (⟨false, "You have already voted on this poll.", none⟩, exampleDB) :=
  C4_already_voted "u1" "p1" "Blue" exampleDB examplePoll ⟨0, "p1", "u1", "Red"⟩
    (by decide) (by decide) (by decide) (by decide) (by decide) (by decide)

/-- C5 counterexample: the empty string is not an element of the example
poll's options, yet an authenticated submission of it fails with the
schema-validation message "Invalid vote data" rather than the
InvalidOption outcome. -/
theorem C5_counterexample :
    "" ∉ examplePoll.options
    ∧ (submitVote (some "u5") "p1" "" exampleDB).1.message = "Invalid vote data"
    ∧ (submitVote (some "u5") "p1" "" exampleDB).1.message ≠ msgInvalidOption := by
  refine ⟨by decide, rfl, by decide⟩

/-- C5 (amended): a vote submission whose selectedOption is not in the
target poll's options never creates a Vote row and never succeeds; the
failure carries the InvalidOption message whenever the caller is
authenticated and pollId, selectedOption and the user id are nonempty
(otherwise the schema-validation or Unauthorized failure fires first).
The legacy actions.ts submitVote reports InvalidOption for every
authenticated submission of an option outside an existing poll's
options. -/
theorem C5_invalid_option :
    (∀ u pid o db poll, pid ≠ "" → o ≠ "" → u ≠ "" →
      findPoll pid db = some poll → o ∉ poll.options →
      submitVote (some u) pid o db = (⟨false, msgInvalidOption, none⟩, db))
    ∧ (∀ user pid o db,
        (∀ poll, findPoll pid db = some poll → o ∉ poll.options) →
        (submitVote user pid o db).1.success = false
        ∧ (submitVote user pid o db).2 = db)
    ∧ (∀ u pid o db poll, findPoll pid db = some poll → o ∉ poll.options →
        submitVoteLegacy (some u) pid o db
          = (⟨false, "Invalid voting option.", none⟩, db)) := by
  refine ⟨?_, ?_, ?_⟩
  · intro u pid o db poll hpid ho2 hu hp ho
    exact submitVote_invalidOption_eq u pid o db poll
      (submitVoteErrors_nil u pid o hpid ho2 hu) hp ho
  · intro user pid o db hall
    cases user with
    | none =>
      rw [submitVote_none_eq]
      exact ⟨rfl, rfl⟩
    | some u =>
      by_cases herr : submitVoteErrors pid o u = []
      · cases hp : findPoll pid db with
        | none =>
          rw [submitVote_notFound_eq u pid o db herr hp]
          exact ⟨rfl, rfl⟩
        | some poll =>
          rw [submitVote_invalidOption_eq u pid o db poll herr hp (hall poll hp)]
          exact ⟨rfl, rfl⟩
      · rw [submitVote_errors_eq u pid o db herr]
        exact ⟨rfl, rfl⟩
  · intro u pid o db poll hp ho
    exact submitVoteLegacy_invalidOption_eq u pid o db poll hp ho

/-- Witness for C5: submitting Yellow (not an option of p1) as an
authenticated fresh voter fails with InvalidOption and changes nothing. -/
theorem C5_invalid_option_witness :
    submitVote (some "u9") "p1" "Yellow" exampleDB
      = (⟨false, msgInvalidOption, none⟩, exampleDB) :=
  C5_invalid_option.1 "u9" "p1" "Yellow" exampleDB examplePoll
    (by decide) (by decide) (by decide) (by decide) (by decide)

/-- C6: for every pollId and option, an unauthenticated submitVote returns
exactly the structured failure carrying MESSAGES.ERROR.UNAUTHORIZED (the
spec's Unauthorized outcome), with no errors field set and the store
unchanged — no Vote row is created. -/
theorem C6_unauthenticated_submitVote :
    ∀ pid o db, submitVote none pid o db = (⟨false, msgUnauthorized, none⟩, db) :=
  submitVote_none_eq

lemma getPollWithVotes_some_eq (id : String) (db : DB) (poll : Poll)
    (hf : findPoll id db = some poll) :
    getPollWithVotes id db
      = some (poll,
              voteCounts poll.options (db.votes.filter (fun v => v.pollId == id)),
              (db.votes.filter (fun v => v.pollId == id)).length) := by
  simp [getPollWithVotes, hf]

/-- C2 counterexample: in a store whose single vote chose Blue while the
poll's options were edited down to just Red, the tally computed by
getPollWithVotes sums to 0 while totalVotes is 1 — the claimed equality
fails when a vote references an option no longer in the options
sequence. -/
theorem C2_counterexample :
    getPollWithVotes "p1" orphanOptionDB
      = some (⟨"p1", "q", ["Red"], "u1"⟩, [("Red", 0)], 1)
    ∧ sumCounts [("Red", 0)] = 0
    ∧ (0 : Nat) ≠ 1 := by
  refine ⟨rfl, rfl, by decide⟩

/-- C2 (amended): for every poll found by getPollWithVotes, the sum of the
per-option counts equals the number of the poll's Vote rows whose
selectedOption is still in the options sequence; it therefore never
exceeds totalVotes (the number of all the poll's Vote rows), and equals it
exactly when no vote references a removed option — votes referencing an
option outside the sequence are silently ignored by the tally. -/
theorem C2_tally_sum (id : String) (db : DB) (poll : Poll)
    (counts : List (String × Nat)) (total : Nat)
    (h : getPollWithVotes id db = some (poll, counts, total)) :
    sumCounts counts
      = (db.votes.filter (fun v => v.pollId == id)).countP
          (fun v => decide (v.selectedOption ∈ poll.options))
    ∧ total = (db.votes.filter (fun v => v.pollId == id)).length
    ∧ sumCounts counts ≤ total := by
  cases hf : findPoll id db with
  | none =>
    unfold getPollWithVotes at h
    rw [hf] at h
    simp at h
  | some p =>
    rw [getPollWithVotes_some_eq id db p hf] at h
    simp only [Option.some.injEq, Prod.mk.injEq] at h
    obtain ⟨h1, h2, h3⟩ := h
    subst h1
    subst h2
    subst h3
    refine ⟨sum_voteCounts _ _, rfl, ?_⟩
    rw [sum_voteCounts]
    exact List.countP_le_length _

/-- Witness for C2: on the orphan-option store the sum of the tally is the
count of votes still referencing a live option (0), below totalVotes 1. -/
theorem C2_tally_sum_witness :
    sumCounts [("Red", 0)]
      = (orphanOptionDB.votes.filter (fun v => v.pollId == "p1")).countP
          (fun v => decide (v.selectedOption ∈ (⟨"p1", "q", ["Red"], "u1"⟩ : Poll).options))
    ∧ (1 : Nat) = (orphanOptionDB.votes.filter (fun v => v.pollId == "p1")).length
    ∧ sumCounts [("Red", 0)] ≤ 1 :=
  C2_tally_sum "p1" orphanOptionDB ⟨"p1", "q", ["Red"], "u1"⟩ [("Red", 0)] 1 rfl

/-- C3: the tally record computed over a poll's options and votes has a
key for exactly the elements of the options sequence (options with zero
votes included with value 0, nothing else), each option mapping to the
number of votes whose selectedOption equals it; on the spec's example —
options Red/Blue/Green with votes Red, Blue, Red — the tally is
Red 2, Blue 1, Green 0 with 3 total votes. -/
theorem C3_tally_mapping :
    (∀ options votes o,
      getCount (voteCounts options votes) o
        = if o ∈ options then
            some (votes.countP (fun v => v.selectedOption == o))
          else none)
    ∧ voteCounts ["Red", "Blue", "Green"] exampleVotes
        = [("Red", 2), ("Blue", 1), ("Green", 0)]
    ∧ exampleVotes.length = 3 :=
  ⟨getCount_voteCounts, by decide, rfl⟩

/-- C7 counterexample: the creator's deletePoll on the example poll, which
has votes, fails ("Failed to delete poll.") and removes nothing — the
Vote.pollId foreign key is ON DELETE RESTRICT, so the deletion is refused
rather than cascading to the votes. -/
theorem C7_counterexample :
    examplePoll.creatorId = "u1"
    ∧ deletePoll (some "u1") "p1" exampleDB
        = (⟨false, "Failed to delete poll.", none⟩, exampleDB)
    ∧ (⟨0, "p1", "u1", "Red"⟩ : Vote) ∈ (deletePoll (some "u1") "p1" exampleDB).2.votes
    ∧ examplePoll ∈ (deletePoll (some "u1") "p1" exampleDB).2.polls := by
  exact ⟨rfl, rfl, by decide, by decide⟩

/-- C7 (amended): poll deletion does not cascade: with any Vote row
referencing the poll, deletePoll fails and leaves the store unchanged
(FK ON DELETE RESTRICT); when deletePoll succeeds the votes are untouched
and none of them references the deleted poll (the delete is only accepted
on a vote-free poll); and the no-orphan invariant — every Vote row
references an existing poll — is preserved by every operation of the
program, so no state reachable from an orphan-free state has a Vote row
referencing a deleted poll. -/
theorem C7_delete_no_cascade :
    (∀ u pid db, (∃ v ∈ db.votes, v.pollId = pid) →
      deletePoll (some u) pid db = (⟨false, "Failed to delete poll.", none⟩, db))
    ∧ (∀ u pid db, (deletePoll (some u) pid db).1.success = true →
        (deletePoll (some u) pid db).2.votes = db.votes
        ∧ ∀ v ∈ (deletePoll (some u) pid db).2.votes, v.pollId ≠ pid)
    ∧ (∀ db db2, NoOrphans db → Step db db2 → NoOrphans db2) := by
  refine ⟨?_, ?_, noOrphans_step⟩
  · rintro u pid db ⟨v, hv, hpid⟩
    have hany : db.votes.any (fun v2 => v2.pollId == pid) = true :=
      List.any_eq_true.mpr ⟨v, hv, by simp [hpid]⟩
    cases hf : db.polls.find? (fun p => p.id == pid && p.creatorId == u) with
    | none => exact deletePoll_notOwned_eq u pid db hf
    | some p => exact deletePoll_hasVotes_eq u pid db p hf hany
  · intro u pid db hsucc
    cases hf : db.polls.find? (fun p => p.id == pid && p.creatorId == u) with
    | none =>
      rw [deletePoll_notOwned_eq u pid db hf] at hsucc
      simp at hsucc
    | some p =>
      cases hany : db.votes.any (fun v => v.pollId == pid) with
      | true =>
        rw [deletePoll_hasVotes_eq u pid db p hf hany] at hsucc
        simp at hsucc
      | false =>
        rw [deletePoll_success_eq u pid db p hf hany]
        refine ⟨rfl, ?_⟩
        intro v hv hcon
        have hc : db.votes.any (fun v2 => v2.pollId == pid) = true :=
          List.any_eq_true.mpr ⟨v, hv, by simp [hcon]⟩
        rw [hany] at hc
        cases hc

/-- Witness for C7: the creator's deletePoll on the voted example poll
returns the failure result and leaves the store unchanged. -/
theorem C7_delete_no_cascade_witness :
    deletePoll (some "u1") "p1" exampleDB
      = (⟨false, "Failed to delete poll.", none⟩, exampleDB) :=
  C7_delete_no_cascade.1 "u1" "p1" exampleDB ⟨⟨0, "p1", "u1", "Red"⟩, by decide, rfl⟩

lemma dedup_length_eq_iff (l : List String) :
    l.dedup.length = l.length ↔ l.Nodup := by
  constructor
  · intro h
    have heq := List.Sublist.eq_of_length (List.dedup_sublist l) h
    rw [← heq]
    exact List.nodup_dedup l
  · intro h
    rw [List.dedup_eq_self.mpr h]

/-- C8: a poll options list containing the same string at two different
positions is rejected by pollFormSchema (the uniqueness refine), while the
storage path — the POST /api/polls handler, whose schema has no
uniqueness check — accepts it: an authenticated request with a nonempty
question and at least two options gets a 201 response and a Poll row
persisting exactly those options, duplicates included. -/
theorem C8_duplicate_options :
    (∀ q opts i j (hi : i < opts.length) (hj : j < opts.length),
      i ≠ j → opts.get ⟨i, hi⟩ = opts.get ⟨j, hj⟩ →
      pollFormSchemaCheck q opts = false)
    ∧ (∀ u q opts db, q ≠ "" → 2 ≤ opts.length →
        (apiCreatePoll (some u) q opts db).1.status = 201
        ∧ ∃ p ∈ (apiCreatePoll (some u) q opts db).2.polls, p.options = opts) := by
  constructor
  · intro q opts i j hi hj hne hget
    have hnd : ¬ opts.Nodup := by
      intro hnd
      have hinj := List.nodup_iff_injective_get.mp hnd
      have h2 : (⟨i, hi⟩ : Fin opts.length) = ⟨j, hj⟩ := hinj hget
      exact hne (congrArg Fin.val h2)
    have hdl : ¬ opts.dedup.length = opts.length := by
      rw [dedup_length_eq_iff]
      exact hnd
    unfold pollFormSchemaCheck
    simp [hdl]
  · intro u q opts db hq hlen
    have hc : ¬ (q = "" ∨ opts.length < 2) := by
      push_neg
      exact ⟨hq, by omega⟩
    have heq : apiCreatePoll (some u) q opts db
        = (⟨201, "created"⟩,
           { db with
              polls := db.polls ++ [⟨"poll-" ++ toString db.nextPollId, q, opts, u⟩],
              nextPollId := db.nextPollId + 1 }) := by
      simp only [apiCreatePoll]
      rw [if_neg hc]
    rw [heq]
    exact ⟨rfl, ⟨"poll-" ++ toString db.nextPollId, q, opts, u⟩,
           List.mem_append_right _ (by simp), rfl⟩

/-- Witness for C8: the duplicate options list A, A fails pollFormSchema,
yet the API POST handler persists a poll with exactly those options and
answers 201. -/
theorem C8_duplicate_options_witness :
    pollFormSchemaCheck "Q?" ["A", "A"] = false
    ∧ ((apiCreatePoll (some "u1") "Q?" ["A", "A"] exampleDB).1.status = 201
        ∧ ∃ p ∈ (apiCreatePoll (some "u1") "Q?" ["A", "A"] exampleDB).2.polls,
            p.options = ["A", "A"]) :=
  ⟨C8_duplicate_options.1 "Q?" ["A", "A"] 0 1 (by decide) (by decide) (by decide) rfl,
   C8_duplicate_options.2 "u1" "Q?" ["A", "A"] exampleDB (by decide) (by decide)⟩

/-- C9 counterexample: an authenticated createPoll with a malformed shape
(empty question, empty options list) raises the uncaught ZodError —
modeled as the Except.error outcome — instead of returning a structured
result: the inner schema.parse runs outside the try/catch. -/
theorem C9_counterexample :
    createPoll (some "u1") "" [] exampleDB = .error "ZodError"
    ∧ (createPoll (some "u1") "" [] exampleDB).isOk = false := ⟨rfl, rfl⟩

/-- C9 (amended): not every fault is recovered at the action boundary:
createPoll and updatePoll run their inner schema.parse outside the
try/catch, so exactly the authenticated calls with a malformed shape
(empty question or fewer than two options) propagate an uncaught
validation error; every other call of these two actions returns a
structured result. -/
theorem C9_fault_boundary :
    (∀ user q opts db,
      (∃ e, createPoll user q opts db = .error e)
        ↔ (user ≠ none ∧ (q = "" ∨ opts.length < 2)))
    ∧ (∀ user pid q opts db,
        (∃ e, updatePoll user pid q opts db = .error e)
          ↔ (user ≠ none ∧ (q = "" ∨ opts.length < 2))) := by
  constructor
  · intro user q opts db
    cases user with
    | none => simp [createPoll]
    | some u =>
      by_cases hc : q = "" ∨ opts.length < 2
      · simp only [createPoll]
        rw [if_pos hc]
        simp [hc]
      · simp only [createPoll]
        rw [if_neg hc]
        simp [hc]
  · intro user pid q opts db
    cases user with
    | none => simp [updatePoll]
    | some u =>
      by_cases hc : q = "" ∨ opts.length < 2
      · simp only [updatePoll]
        rw [if_pos hc]
        simp [hc]
      · simp only [updatePoll]
        rw [if_neg hc]
        cases hf : db.polls.find? (fun p => p.id == pid && p.creatorId == u) with
        | none => simp [hc]
        | some p => simp [hc]

/-- C10: for an authenticated user with nonempty id who has not voted on
an existing poll, a successful submitVote of a valid nonempty option
followed by removeVote restores the pair's state: removeVote succeeds,
hasUserVoted is false again, getUserVote is null, and the set of Vote rows
for (poll, user) is empty. -/
theorem C10_vote_remove_roundtrip (u pid o : String) (db : DB) (poll : Poll)
    (hu : u ≠ "") (hpid : pid ≠ "") (ho2 : o ≠ "")
    (hp : findPoll pid db = some poll) (ho : o ∈ poll.options)
    (hnone : findUserVote pid u db = none) :
    (submitVote (some u) pid o db).1.success = true
    ∧ (removeVote (some u) pid (submitVote (some u) pid o db).2).1.success = true
    ∧ hasUserVoted (some u) pid
        (removeVote (some u) pid (submitVote (some u) pid o db).2).2 = false
    ∧ getUserVote (some u) pid
        (removeVote (some u) pid (submitVote (some u) pid o db).2).2 = none
    ∧ (removeVote (some u) pid (submitVote (some u) pid o db).2).2.votes.filter
        (fun v => v.pollId == pid && v.userId == u) = [] := by
  have herr := submitVoteErrors_nil u pid o hpid ho2 hu
  have hsub := submitVote_success_eq u pid o db poll herr hp ho hnone
  have hfind1 : findUserVote pid u
      { db with
         votes := db.votes ++ [⟨db.nextVoteId, pid, u, o⟩],
         nextVoteId := db.nextVoteId + 1 }
      = some ⟨db.nextVoteId, pid, u, o⟩ := by
    unfold findUserVote at hnone ⊢
    rw [List.find?_append, hnone]
    simp
  have hrem : removeVote (some u) pid (submitVote (some u) pid o db).2
      = (⟨true, "Vote removed successfully", none⟩,
         { db with
            votes := (db.votes ++ [(⟨db.nextVoteId, pid, u, o⟩ : Vote)]).filter
              (fun w => w.id ≠ db.nextVoteId),
            nextVoteId := db.nextVoteId + 1 }) := by
    rw [hsub]
    exact removeVote_found_eq u pid _ ⟨db.nextVoteId, pid, u, o⟩ hfind1
  have hdb2 : (removeVote (some u) pid (submitVote (some u) pid o db).2).2
      = { db with
           votes := (db.votes ++ [(⟨db.nextVoteId, pid, u, o⟩ : Vote)]).filter
             (fun w => w.id ≠ db.nextVoteId),
           nextVoteId := db.nextVoteId + 1 } := by
    rw [hrem]
  have hall : ∀ w ∈ (db.votes ++ [(⟨db.nextVoteId, pid, u, o⟩ : Vote)]).filter
      (fun w => w.id ≠ db.nextVoteId),
      ¬ (w.pollId == pid && w.userId == u) = true := by
    intro w hw
    have hmem := List.mem_filter.mp hw
    rcases List.mem_append.mp hmem.1 with hmem1 | hmem2
    · have hnot := (findUserVote_none_iff pid u db).mp hnone w hmem1
      rw [Bool.and_eq_true, beq_iff_eq, beq_iff_eq]
      exact hnot
    · exfalso
      have hweq : w = ⟨db.nextVoteId, pid, u, o⟩ := by simpa using hmem2
      rw [hweq] at hmem
      simp at hmem
  have hnone2 : findUserVote pid u
      { db with
         votes := (db.votes ++ [(⟨db.nextVoteId, pid, u, o⟩ : Vote)]).filter
           (fun w => w.id ≠ db.nextVoteId),
         nextVoteId := db.nextVoteId + 1 }
      = none := by
    unfold findUserVote
    rw [List.find?_eq_none]
    exact hall
  refine ⟨by rw [hsub], by rw [hrem], ?_, ?_, ?_⟩
  · rw [hasUserVoted_eq, hdb2, hnone2]
    rfl
  · rw [hdb2]
    exact getUserVote_none_eq u pid _ hnone2
  · rw [hdb2, List.filter_eq_nil_iff]
    exact hall

/-- Witness for C10: a fresh voter u9 voting Green on the example poll and
then removing the vote ends with no Vote row for (p1, u9). -/
theorem C10_vote_remove_roundtrip_witness :
    (submitVote (some "u9") "p1" "Green" exampleDB).1.success = true
    ∧ (removeVote (some "u9") "p1"
        (submitVote (some "u9") "p1" "Green" exampleDB).2).1.success = true
    ∧ hasUserVoted (some "u9") "p1"
        (removeVote (some "u9") "p1"
          (submitVote (some "u9") "p1" "Green" exampleDB).2).2 = false
    ∧ getUserVote (some "u9") "p1"
        (removeVote (some "u9") "p1"
          (submitVote (some "u9") "p1" "Green" exampleDB).2).2 = none
    ∧ (removeVote (some "u9") "p1"
        (submitVote (some "u9") "p1" "Green" exampleDB).2).2.votes.filter
          (fun v => v.pollId == "p1" && v.userId == "u9") = [] :=
  C10_vote_remove_roundtrip "u9" "p1" "Green" exampleDB examplePoll
    (by decide) (by decide) (by decide) (by decide) (by decide) (by decide)

end Pollify
